import Mathlib

/-
Verification of the ZT trade-data acquisition and analysis engine.

Shallow embedding of the Python sources:
  src/utils.py       : HS-code cleaning, AI candidate extraction, conflict resolution
  src/data_miner.py  : multi-year fetch loops and the 4-request analysis
  src/database.py    : the api_cache table adapter (upsert / TTL read)

Python strings are Lean `String`s, Python `None`-able results are `Option`s,
monetary values are `ℚ`, CAGR percentages (float arithmetic with a fractional
power) are `ℝ` with `Real.rpow`.
-/

set_option autoImplicit false

namespace ZT

/-! ## utils.clean_hs_code (src/utils.py lines 16-62) -/

/-- Python `str.strip()`: drop leading and trailing whitespace characters. -/
def pyStrip (l : List Char) : List Char :=
  ((l.dropWhile Char.isWhitespace).reverse.dropWhile Char.isWhitespace).reverse

/-- Lines 50-56 of utils.py: keep the first 6 digits, then right-pad with `'0'`
to length 6. -/
def padTruncate6 (digits : List Char) : List Char :=
  let code := digits.take 6
  code ++ List.replicate (6 - code.length) '0'

/-- src/utils.py `clean_hs_code` (lines 16-62).  `if not raw_code` is the
empty-string test; `str(raw_code).strip()` is `pyStrip`; removing dots and then
all non-digits are the two filters; the final guard is lines 58-60. -/
def clean_hs_code (raw : String) : Option String :=
  if raw.data = [] then none
  else
    let stripped := pyStrip raw.data
    let noDots := stripped.filter (fun c => decide (c ≠ '.'))
    let digits := noDots.filter Char.isDigit
    if digits = [] then none
    else
      let padded := padTruncate6 digits
      if padded.all Char.isDigit && padded.length == 6 then some ⟨padded⟩ else none

/-! ### Helper lemmas for clean_hs_code -/

theorem filter_dropWhile_eq {α : Type} {p q : α → Bool} (h : ∀ c, q c = true → p c = false) :
    ∀ l : List α, (l.dropWhile q).filter p = l.filter p := by
  intro l
  induction l with
  | nil => rfl
  | cons a t ih =>
    by_cases hq : q a = true
    · rw [List.dropWhile_cons_of_pos hq, ih, List.filter_cons_of_neg (by simp [h a hq])]
    · rw [List.dropWhile_cons_of_neg (by simp [hq])]

theorem isWhitespace_not_isDigit (c : Char) (h : c.isWhitespace = true) :
    c.isDigit = false := by
  simp only [Char.isWhitespace, Bool.or_eq_true, decide_eq_true_eq, beq_iff_eq] at h
  rcases h with ((h | h) | h) | h <;> subst h <;> decide

theorem filter_isDigit_pyStrip (l : List Char) :
    (pyStrip l).filter Char.isDigit = l.filter Char.isDigit := by
  unfold pyStrip
  rw [List.filter_reverse, filter_dropWhile_eq isWhitespace_not_isDigit,
    List.filter_reverse, List.reverse_reverse, filter_dropWhile_eq isWhitespace_not_isDigit]

theorem filter_isDigit_noDots (l : List Char) :
    (l.filter (fun c => decide (c ≠ '.'))).filter Char.isDigit = l.filter Char.isDigit := by
  rw [List.filter_filter]
  apply List.filter_congr
  intro c _
  by_cases hd : c.isDigit = true
  · have : c ≠ '.' := by
      intro hc; subst hc; exact absurd hd (by decide)
    simp [hd, this]
  · simp [Bool.eq_false_iff.mpr hd]

theorem padTruncate6_length (digits : List Char) : (padTruncate6 digits).length = 6 := by
  unfold padTruncate6
  simp only [List.length_append, List.length_replicate]
  have : (digits.take 6).length ≤ 6 := by
    simp [List.length_take]
  omega

theorem padTruncate6_all_digits (digits : List Char) (h : ∀ c ∈ digits, c.isDigit = true) :
    (padTruncate6 digits).all Char.isDigit = true := by
  unfold padTruncate6
  simp only [List.all_append, Bool.and_eq_true, List.all_eq_true]
  constructor
  · intro c hc
    exact h c (List.mem_of_mem_take hc)
  · intro c hc
    rw [List.eq_of_mem_replicate hc]
    decide

/-- The digit extraction performed by `clean_hs_code` is exactly a filter of
the raw input. -/
theorem clean_digits_eq (raw : String) :
    ((pyStrip raw.data).filter (fun c => decide (c ≠ '.'))).filter Char.isDigit =
      raw.data.filter Char.isDigit := by
  rw [filter_isDigit_noDots, filter_isDigit_pyStrip]

/-- Characterization of `clean_hs_code`: it succeeds iff the input contains at
least one digit, and the result is the padded truncation of the digit
subsequence. -/
theorem clean_hs_code_eq (raw : String) :
    clean_hs_code raw =
      if raw.data.filter Char.isDigit = [] then none
      else some ⟨padTruncate6 (raw.data.filter Char.isDigit)⟩ := by
  unfold clean_hs_code
  by_cases hraw : raw.data = []
  · simp [hraw]
  · rw [if_neg hraw]
    simp only [clean_digits_eq raw]
    by_cases hd : raw.data.filter Char.isDigit = []
    · simp [hd]
    · rw [if_neg hd, if_neg hd, if_pos]
      rw [Bool.and_eq_true, beq_iff_eq]
      refine ⟨padTruncate6_all_digits _ ?_, padTruncate6_length _⟩
      intro c hc
      exact (List.mem_filter.mp hc).2

theorem clean_hs_code_some_shape {raw c : String} (h : clean_hs_code raw = some c) :
    c.data.length = 6 ∧ c.data.all Char.isDigit = true := by
  rw [clean_hs_code_eq] at h
  by_cases hd : raw.data.filter Char.isDigit = []
  · rw [if_pos hd] at h; exact absurd h (by simp)
  · rw [if_neg hd] at h
    have hc : c = ⟨padTruncate6 (raw.data.filter Char.isDigit)⟩ := by
      injection h with h'; exact h'.symm
    subst hc
    refine ⟨padTruncate6_length _, padTruncate6_all_digits _ ?_⟩
    intro x hx
    exact (List.mem_filter.mp hx).2

/-- Claim C4: for every input string, `clean_hs_code` removes all non-digit
characters (dots included), truncates to the first 6 digits, right-pads short
results with `'0'` to length 6, and is idempotent on every input on which it
returns a code. -/
theorem C4_clean_hs_code :
    (∀ raw : String,
      clean_hs_code raw =
        if raw.data.filter Char.isDigit = [] then none
        else some ⟨padTruncate6 (raw.data.filter Char.isDigit)⟩) ∧
    (∀ raw c : String, clean_hs_code raw = some c → clean_hs_code c = some c) := by
  refine ⟨clean_hs_code_eq, ?_⟩
  intro raw c h
  obtain ⟨hlen, hdig⟩ := clean_hs_code_some_shape h
  rw [List.all_eq_true] at hdig
  have hfilter : c.data.filter Char.isDigit = c.data := by
    rw [List.filter_eq_self]; exact hdig
  rw [clean_hs_code_eq, hfilter, if_neg (by intro he; rw [he] at hlen; simp at hlen)]
  have hpad : padTruncate6 c.data = c.data := by
    unfold padTruncate6
    rw [List.take_of_length_le (by omega)]
    show c.data ++ List.replicate (6 - c.data.length) '0' = c.data
    rw [hlen]
    simp
  rw [hpad]

/-- Witness for C4 at the concrete input `"0801.12"`. -/
theorem C4_clean_hs_code_witness :
    clean_hs_code "0801.12" = some "080112" ∧ clean_hs_code "080112" = some "080112" :=
  ⟨by decide, C4_clean_hs_code.2 "0801.12" "080112" (by decide)⟩

/-! ## utils.extract_hs_codes_from_ai (src/utils.py lines 65-109) -/

/-- A candidate entry from the AI result: either a dict carrying a `code`
field (the `description` is never read by the extraction) or a bare string. -/
inductive AIItem where
  | obj (code : String) (description : String)
  | str (s : String)
deriving DecidableEq

/-- Lines 97-101 of utils.py: `item.get('code', '')` for a dict, `str(item)`
otherwise. -/
def AIItem.rawCode : AIItem → String
  | .obj code _ => code
  | .str s => s

/-- The portion of the AI result dictionary that the extraction reads.  A
`none` field models an absent key (`ai_result.get(key, [])` then yields `[]`). -/
structure AIResult where
  raw_hs_codes : Option (List AIItem) := none
  semi_hs_codes : Option (List AIItem) := none
  finished_hs_codes : Option (List AIItem) := none
deriving DecidableEq

/-- `stage_key_map.get(stage)` followed by `ai_result.get(key, [])`
(utils.py lines 76-87): an unrecognized stage yields `none`. -/
def stageItems (ai : AIResult) (stage : String) : Option (List AIItem) :=
  if stage = "raw" then some (ai.raw_hs_codes.getD [])
  else if stage = "semi" then some (ai.semi_hs_codes.getD [])
  else if stage = "finished" then some (ai.finished_hs_codes.getD [])
  else none

/-- The loop of utils.py lines 96-107: clean each candidate, drop failures,
and keep only the first occurrence of each cleaned code (`seen` set). -/
def extractAux : List AIItem → List String → List String
  | [], _ => []
  | item :: rest, seen =>
    match clean_hs_code item.rawCode with
    | some c => if c ∈ seen then extractAux rest seen else c :: extractAux rest (c :: seen)
    | none => extractAux rest seen

/-- src/utils.py `extract_hs_codes_from_ai` (lines 65-109). -/
def extract_hs_codes_from_ai (ai : AIResult) (stage : String) : List String :=
  match stageItems ai stage with
  | none => []
  | some items => if items = [] then [] else extractAux items []

/-! ### Helper lemmas for the extraction -/

/-- Keep the first occurrence of each element not already seen (the intended
reading of the `seen`-set loop, stated over the cleaned code sequence). -/
def keepFirsts (seen : List String) : List String → List String
  | [] => []
  | c :: rest => if c ∈ seen then keepFirsts seen rest else c :: keepFirsts (c :: seen) rest

theorem extractAux_eq_keepFirsts (items : List AIItem) (seen : List String) :
    extractAux items seen =
      keepFirsts seen (items.filterMap (fun it => clean_hs_code it.rawCode)) := by
  induction items generalizing seen with
  | nil => rfl
  | cons item rest ih =>
    rw [extractAux, List.filterMap_cons]
    cases h : clean_hs_code item.rawCode with
    | none => exact ih seen
    | some c =>
      show (if c ∈ seen then extractAux rest seen else c :: extractAux rest (c :: seen)) = _
      rw [keepFirsts]
      by_cases hc : c ∈ seen
      · rw [if_pos hc, if_pos hc, ih seen]
      · rw [if_neg hc, if_neg hc, ih (c :: seen)]

theorem keepFirsts_nodup_and_fresh (l : List String) :
    ∀ seen, (keepFirsts seen l).Nodup ∧ ∀ c ∈ keepFirsts seen l, c ∉ seen := by
  induction l with
  | nil => intro seen; simp [keepFirsts]
  | cons a rest ih =>
    intro seen
    rw [keepFirsts]
    by_cases ha : a ∈ seen
    · rw [if_pos ha]; exact ih seen
    · rw [if_neg ha]
      obtain ⟨hnd, hfresh⟩ := ih (a :: seen)
      refine ⟨List.nodup_cons.mpr ⟨?_, hnd⟩, ?_⟩
      · intro hmem
        exact hfresh a hmem (List.mem_cons_self a seen)
      · intro c hc
        rcases List.mem_cons.mp hc with hca | hctail
        · subst hca; exact ha
        · intro hcs
          exact hfresh c hctail (List.mem_cons_of_mem a hcs)

theorem keepFirsts_subset (l : List String) :
    ∀ seen c, c ∈ keepFirsts seen l → c ∈ l := by
  induction l with
  | nil => intro seen c hc; simp [keepFirsts] at hc
  | cons a rest ih =>
    intro seen c hc
    rw [keepFirsts] at hc
    by_cases ha : a ∈ seen
    · rw [if_pos ha] at hc
      exact List.mem_cons_of_mem a (ih seen c hc)
    · rw [if_neg ha] at hc
      rcases List.mem_cons.mp hc with hca | hctail
      · subst hca; exact List.mem_cons_self _ _
      · exact List.mem_cons_of_mem a (ih (a :: seen) c hctail)

theorem extract_eq_keepFirsts (ai : AIResult) (stage : String) :
    extract_hs_codes_from_ai ai stage =
      keepFirsts []
        (((stageItems ai stage).getD []).filterMap (fun it => clean_hs_code it.rawCode)) := by
  unfold extract_hs_codes_from_ai
  cases h : stageItems ai stage with
  | none => rfl
  | some items =>
    simp only [Option.getD_some]
    by_cases hi : items = []
    · subst hi; rfl
    · rw [if_neg hi, extractAux_eq_keepFirsts]

/-- Claim C10: the candidate extraction returns a duplicate-free list of valid
6-digit cleaned codes, in order of first occurrence of the cleaned form;
cleaning failures are dropped; an unrecognized stage or an absent/empty
candidate list yields `[]`. -/
theorem C10_extract_hs_codes (ai : AIResult) (stage : String) :
    (extract_hs_codes_from_ai ai stage).Nodup ∧
    (∀ c ∈ extract_hs_codes_from_ai ai stage,
        c.data.length = 6 ∧ c.data.all Char.isDigit = true) ∧
    extract_hs_codes_from_ai ai stage =
      keepFirsts []
        (((stageItems ai stage).getD []).filterMap (fun it => clean_hs_code it.rawCode)) ∧
    (stage ≠ "raw" → stage ≠ "semi" → stage ≠ "finished" →
        extract_hs_codes_from_ai ai stage = []) ∧
    (stageItems ai stage = some [] → extract_hs_codes_from_ai ai stage = []) := by
  refine ⟨?_, ?_, extract_eq_keepFirsts ai stage, ?_, ?_⟩
  · rw [extract_eq_keepFirsts]
    exact (keepFirsts_nodup_and_fresh _ _).1
  · intro c hc
    rw [extract_eq_keepFirsts] at hc
    have hmem := keepFirsts_subset _ _ _ hc
    obtain ⟨it, _, hclean⟩ := List.mem_filterMap.mp hmem
    exact clean_hs_code_some_shape hclean
  · intro h1 h2 h3
    unfold extract_hs_codes_from_ai stageItems
    rw [if_neg h1, if_neg h2, if_neg h3]
  · intro h
    unfold extract_hs_codes_from_ai
    rw [h]
    show (if ([] : List AIItem) = [] then [] else extractAux [] []) = []
    rw [if_pos rfl]

/-- A concrete AI result with a duplicate cleaned code and a candidate whose
cleaning fails. -/
def exampleAI : AIResult :=
  { raw_hs_codes := some [.obj "0801.12" "Coconuts", .str "0801.12.00", .str "abc"] }

/-- Witness for C10 at `exampleAI`, with an unrecognized stage name. -/
theorem C10_extract_hs_codes_witness :
    extract_hs_codes_from_ai exampleAI "bogus" = [] ∧
    extract_hs_codes_from_ai exampleAI "raw" =
      keepFirsts []
        (((stageItems exampleAI "raw").getD []).filterMap
          (fun it => clean_hs_code it.rawCode)) :=
  ⟨(C10_extract_hs_codes exampleAI "bogus").2.2.2.1 (by decide) (by decide) (by decide),
   (C10_extract_hs_codes exampleAI "raw").2.2.1⟩

/-! ## utils.select_hs_codes_with_conflict_resolution (src/utils.py lines 127-171) -/

/-- The per-stage step of the loop (utils.py lines 148-169): skip an empty
candidate list, otherwise take the first candidate not yet used (adding it to
the used set), falling back to the first candidate with the used set left
unchanged. -/
def selectStage (codes used : List String) : Option String × List String :=
  if codes = [] then (none, used)
  else
    match codes.find? (fun c => !decide (c ∈ used)) with
    | some c => (some c, c :: used)
    | none => (codes.head?, used)

/-- The result dictionary of the resolver. -/
structure StageAssignment where
  raw : Option String
  semi : Option String
  finished : Option String
deriving DecidableEq

/-- First loop iteration (`stage = 'raw'`), starting from the empty used set. -/
def resolveRaw (ai : AIResult) : Option String × List String :=
  selectStage (extract_hs_codes_from_ai ai "raw") []

/-- Second loop iteration (`stage = 'semi'`). -/
def resolveSemi (ai : AIResult) : Option String × List String :=
  selectStage (extract_hs_codes_from_ai ai "semi") (resolveRaw ai).2

/-- Third loop iteration (`stage = 'finished'`). -/
def resolveFinished (ai : AIResult) : Option String × List String :=
  selectStage (extract_hs_codes_from_ai ai "finished") (resolveSemi ai).2

/-- src/utils.py `select_hs_codes_with_conflict_resolution` (lines 127-171). -/
def select_hs_codes_with_conflict_resolution (ai : AIResult) : StageAssignment :=
  ⟨(resolveRaw ai).1, (resolveSemi ai).1, (resolveFinished ai).1⟩

/-! ### Helper lemmas for the resolver -/

theorem selectStage_fst_mem_snd {codes used : List String} {c : String}
    (h : (selectStage codes used).1 = some c) : c ∈ (selectStage codes used).2 := by
  unfold selectStage at h ⊢
  by_cases hnil : codes = []
  · rw [if_pos hnil] at h; exact absurd h (by simp)
  · rw [if_neg hnil] at h ⊢
    cases hf : codes.find? (fun c => !decide (c ∈ used)) with
    | some c' =>
      rw [hf] at h
      have h' : some c' = some c := h
      injection h' with h''
      subst h''
      exact List.mem_cons_self _ _
    | none =>
      rw [hf] at h
      have h' : codes.head? = some c := h
      show c ∈ used
      have hall := List.find?_eq_none.mp hf
      have hc' : c ∈ codes := by
        cases codes with
        | nil => exact absurd rfl hnil
        | cons a t =>
          have ha : a = c := by simpa using h'
          subst ha
          exact List.mem_cons_self _ _
      simpa using hall c hc'

theorem selectStage_snd_supset {codes used : List String} :
    used ⊆ (selectStage codes used).2 := by
  unfold selectStage
  by_cases hnil : codes = []
  · rw [if_pos hnil]; exact fun x hx => hx
  · rw [if_neg hnil]
    cases hf : codes.find? (fun c => !decide (c ∈ used)) with
    | some c' =>
      show used ⊆ c' :: used
      exact fun x hx => List.mem_cons_of_mem _ hx
    | none =>
      show used ⊆ used
      exact fun x hx => hx

/-- If the selected code was already used, then every candidate was used, the
selection fell back to the first candidate, and the used set is unchanged. -/
theorem selectStage_dup {codes used : List String} {c : String}
    (h : (selectStage codes used).1 = some c) (hc : c ∈ used) :
    (∀ x ∈ codes, x ∈ used) ∧ (selectStage codes used).1 = codes.head? ∧
      (selectStage codes used).2 = used := by
  unfold selectStage at h ⊢
  by_cases hnil : codes = []
  · rw [if_pos hnil] at h; exact absurd h (by simp)
  · rw [if_neg hnil] at h ⊢
    cases hf : codes.find? (fun c => !decide (c ∈ used)) with
    | some c' =>
      exfalso
      rw [hf] at h
      have h' : some c' = some c := h
      injection h' with h''
      subst h''
      have := List.find?_some hf
      simp at this
      exact this hc
    | none =>
      have hall := List.find?_eq_none.mp hf
      refine ⟨?_, rfl, rfl⟩
      intro x hx
      simpa using hall x hx

/-- `find?` with the not-yet-used predicate is the first free candidate. -/
def firstFree (codes used : List String) : Option String :=
  match codes with
  | [] => none
  | c :: rest => if c ∈ used then firstFree rest used else some c

theorem find?_eq_firstFree (codes used : List String) :
    codes.find? (fun c => !decide (c ∈ used)) = firstFree codes used := by
  induction codes with
  | nil => rfl
  | cons a rest ih =>
    rw [List.find?_cons, firstFree]
    by_cases ha : a ∈ used
    · have hb : (!decide (a ∈ used)) = false := by simp [ha]
      rw [hb, if_pos ha]
      exact ih
    · have hb : (!decide (a ∈ used)) = true := by simp [ha]
      rw [hb, if_neg ha]

/-- Claim C6: stages are processed in the fixed order raw, semi, finished;
each stage receives the first candidate not already assigned (first candidate
as fallback); an empty candidate list yields `none` and leaves the used set
unchanged; and the worked coconut example resolves to
raw = 080112, semi = 151311, finished = 340111. -/
theorem C6_resolver_order_and_example :
    (∀ codes used : List String,
        (selectStage codes used).1 = ((firstFree codes used).or codes.head?)) ∧
    (∀ used : List String, selectStage [] used = (none, used)) ∧
    (∀ ai : AIResult,
        select_hs_codes_with_conflict_resolution ai =
          ⟨(selectStage (extract_hs_codes_from_ai ai "raw") []).1,
           (selectStage (extract_hs_codes_from_ai ai "semi")
              (selectStage (extract_hs_codes_from_ai ai "raw") []).2).1,
           (selectStage (extract_hs_codes_from_ai ai "finished")
              (selectStage (extract_hs_codes_from_ai ai "semi")
                (selectStage (extract_hs_codes_from_ai ai "raw") []).2).2).1⟩) ∧
    select_hs_codes_with_conflict_resolution
        { raw_hs_codes := some [.str "0801.12", .str "0801.19"],
          semi_hs_codes := some [.str "0801.12", .str "1513.11"],
          finished_hs_codes := some [.str "3401.11"] } =
      ⟨some "080112", some "151311", some "340111"⟩ := by
  refine ⟨?_, ?_, fun ai => rfl, by decide⟩
  · intro codes used
    unfold selectStage
    by_cases hc : codes = []
    · subst hc; rfl
    · rw [if_neg hc, find?_eq_firstFree]
      cases hf : firstFree codes used with
      | some c => rfl
      | none => rfl
  · intro used; rfl

/-- Claim C5: the resolver never assigns one code to two stages unless every
candidate of the losing (later) stage is already in the used set at that
stage's turn; in that fallback the duplicate is the losing stage's first
candidate and the used set gains no second copy. -/
theorem C5_no_duplicate_unless_exhausted (ai : AIResult) :
    (∀ c : String, (resolveSemi ai).1 = some c → (resolveRaw ai).1 = some c →
        (∀ x ∈ extract_hs_codes_from_ai ai "semi", x ∈ (resolveRaw ai).2) ∧
        (resolveSemi ai).1 = (extract_hs_codes_from_ai ai "semi").head? ∧
        (resolveSemi ai).2 = (resolveRaw ai).2) ∧
    (∀ c : String, (resolveFinished ai).1 = some c →
        ((resolveRaw ai).1 = some c ∨ (resolveSemi ai).1 = some c) →
        (∀ x ∈ extract_hs_codes_from_ai ai "finished", x ∈ (resolveSemi ai).2) ∧
        (resolveFinished ai).1 = (extract_hs_codes_from_ai ai "finished").head? ∧
        (resolveFinished ai).2 = (resolveSemi ai).2) := by
  constructor
  · intro c hsemi hraw
    have hcraw : c ∈ (resolveRaw ai).2 := selectStage_fst_mem_snd hraw
    exact selectStage_dup hsemi hcraw
  · intro c hfin hearlier
    have hcsemi : c ∈ (resolveSemi ai).2 := by
      rcases hearlier with hraw | hsemi
      · exact selectStage_snd_supset (selectStage_fst_mem_snd hraw)
      · exact selectStage_fst_mem_snd hsemi
    exact selectStage_dup hfin hcsemi

/-- A concrete AI result in which the semi stage has no free alternative
(the moringa fallback case from the repository's tests). -/
def exampleNoAlt : AIResult :=
  { raw_hs_codes := some [.str "1211.90"],
    semi_hs_codes := some [.str "1211.90"],
    finished_hs_codes := some [.str "3004.90"] }

/-- Witness for C5 at `exampleNoAlt`: semi falls back to raw's code. -/
theorem C5_no_duplicate_unless_exhausted_witness :
    (resolveSemi exampleNoAlt).1 = (extract_hs_codes_from_ai exampleNoAlt "semi").head? ∧
    (resolveSemi exampleNoAlt).2 = (resolveRaw exampleNoAlt).2 :=
  ((C5_no_duplicate_unless_exhausted exampleNoAlt).1 "121190" (by decide) (by decide)).2

/-! ## data_miner._analyze_protocol_results (src/data_miner.py lines 362-491)

A row of one of the four DataFrames, reduced to the two columns the analyzer
reads: `period` (a year) and `primaryValue` (a monetary value). -/

structure TradeRow where
  period : Nat
  primaryValue : ℚ
deriving DecidableEq

/-- The `data` dictionary handed to `_analyze_protocol_results`: the four
datasets of the 4-request protocol. -/
structure ProtocolData where
  indonesia_raw_export : List TradeRow
  indonesia_semi_export : List TradeRow
  indonesia_finished_export : List TradeRow
  world_finished_import : List TradeRow
deriving DecidableEq

/-- `df['primaryValue'].sum()`. -/
def valueSum (df : List TradeRow) : ℚ := (df.map (·.primaryValue)).sum

/-- `set(df['period'].unique())`, as a duplicate-free list. -/
def uniqueYears (df : List TradeRow) : List Nat := (df.map (·.period)).dedup

/-- `df.groupby('period')...sort_index()`'s index: the distinct periods in
increasing order. -/
def sortedYears (df : List TradeRow) : List Nat :=
  (uniqueYears df).insertionSort (· ≤ ·)

/-- `df.groupby('period')['primaryValue'].sum().sort_index()`: yearly sums
indexed by year, chronologically. -/
def yearlySums (df : List TradeRow) : List (Nat × ℚ) :=
  (sortedYears df).map fun y => (y, valueSum (df.filter fun r => decide (r.period = y)))

/-- The CAGR block repeated at data_miner.py lines 421-427 (and 436-442,
455-461, 477-483), applied to the sorted yearly sums: with fewer than two
yearly groups or a non-positive first value the trend stays 0, otherwise
`((end_val / start_val) ** (1 / n_years) - 1) * 100` with
`n_years = len(yearly) - 1`. -/
noncomputable def cagrPercent : List (Nat × ℚ) → ℝ
  | [] => 0
  | [_] => 0
  | y0 :: y1 :: rest =>
    let yl := (y1 :: rest).getLast (List.cons_ne_nil _ _)
    let n : ℕ := (y1 :: rest).length
    if 0 < y0.2 then (((yl.2 : ℝ) / (y0.2 : ℝ)) ^ ((1 : ℝ) / (n : ℝ)) - 1) * 100
    else 0

/-- The guard `if len(df) > 1` wrapping each CAGR block. -/
noncomputable def trendOf (df : List TradeRow) : ℝ :=
  if 1 < df.length then cagrPercent (yearlySums df) else 0

/-- `indonesia_finished_years.intersection(global_demand_years)`
(data_miner.py line 386). -/
def commonYears (data : ProtocolData) : List Nat :=
  (uniqueYears data.indonesia_finished_export).filter
    fun y => decide (y ∈ uniqueYears data.world_finished_import)

/-- Lines 388-394: the sorted aligned years, `[]` when the intersection is
empty. -/
def alignedYears (data : ProtocolData) : List Nat :=
  if commonYears data = [] then [] else (commonYears data).insertionSort (· ≤ ·)

/-- `sorted(indonesia_finished_years - global_demand_years)` (line 409). -/
def indonesiaOnlyYears (data : ProtocolData) : List Nat :=
  ((uniqueYears data.indonesia_finished_export).filter
    fun y => !decide (y ∈ uniqueYears data.world_finished_import)).insertionSort (· ≤ ·)

/-- `sorted(global_demand_years - indonesia_finished_years)` (line 410). -/
def globalOnlyYears (data : ProtocolData) : List Nat :=
  ((uniqueYears data.world_finished_import).filter
    fun y => !decide (y ∈ uniqueYears data.indonesia_finished_export)).insertionSort (· ≤ ·)

/-- `df_finished[df_finished['period'].isin(aligned_years)]` (line 450). -/
def finishedAligned (data : ProtocolData) : List TradeRow :=
  data.indonesia_finished_export.filter fun r => decide (r.period ∈ alignedYears data)

/-- `df_demand[df_demand['period'].isin(aligned_years)]` (line 472). -/
def demandAligned (data : ProtocolData) : List TradeRow :=
  data.world_finished_import.filter fun r => decide (r.period ∈ alignedYears data)

/-- Lines 415-417: raw total, 0 when the dataset is empty. -/
def raw_export_total (data : ProtocolData) : ℚ :=
  if data.indonesia_raw_export = [] then 0 else valueSum data.indonesia_raw_export

/-- Lines 415-427: raw trend. -/
noncomputable def raw_export_trend (data : ProtocolData) : ℝ :=
  if data.indonesia_raw_export = [] then 0 else trendOf data.indonesia_raw_export

/-- Lines 430-432: semi total. -/
def semi_export_total (data : ProtocolData) : ℚ :=
  if data.indonesia_semi_export = [] then 0 else valueSum data.indonesia_semi_export

/-- Lines 430-442: semi trend. -/
noncomputable def semi_export_trend (data : ProtocolData) : ℝ :=
  if data.indonesia_semi_export = [] then 0 else trendOf data.indonesia_semi_export

/-- Lines 445-464: finished total — restricted to aligned years when an
alignment exists, the full dataset sum otherwise (the explicit fallback at
lines 462-464). -/
def finished_export_total (data : ProtocolData) : ℚ :=
  if data.indonesia_finished_export = [] then 0
  else if alignedYears data = [] then valueSum data.indonesia_finished_export
  else valueSum (finishedAligned data)

/-- Lines 445-461: finished trend, computed only in the aligned branch. -/
noncomputable def finished_export_trend (data : ProtocolData) : ℝ :=
  if data.indonesia_finished_export = [] then 0
  else if alignedYears data = [] then 0
  else trendOf (finishedAligned data)

/-- Lines 467-486: global-demand total with the same fallback (lines
484-486). -/
def global_demand_total (data : ProtocolData) : ℚ :=
  if data.world_finished_import = [] then 0
  else if alignedYears data = [] then valueSum data.world_finished_import
  else valueSum (demandAligned data)

/-- Lines 467-483: global-demand trend. -/
noncomputable def global_demand_trend (data : ProtocolData) : ℝ :=
  if data.world_finished_import = [] then 0
  else if alignedYears data = [] then 0
  else trendOf (demandAligned data)

/-- Line 489: `global_demand_total - finished_export_total`. -/
def market_gap (data : ProtocolData) : ℚ :=
  global_demand_total data - finished_export_total data

/-- The `analysis` dictionary built at lines 396-412 and populated through
line 489 (the `unit_value_comparison` field stays empty and is omitted). -/
structure Analysis where
  raw_export_total : ℚ
  raw_export_trend : ℝ
  semi_export_total : ℚ
  semi_export_trend : ℝ
  finished_export_total : ℚ
  finished_export_trend : ℝ
  global_demand_total : ℚ
  global_demand_trend : ℝ
  market_gap : ℚ
  aligned_years : List Nat
  excluded_indonesia_only : List Nat
  excluded_global_only : List Nat

/-- src/data_miner.py `_analyze_protocol_results` (lines 362-491). -/
noncomputable def analyze_protocol_results (data : ProtocolData) : Analysis :=
  { raw_export_total := raw_export_total data
    raw_export_trend := raw_export_trend data
    semi_export_total := semi_export_total data
    semi_export_trend := semi_export_trend data
    finished_export_total := finished_export_total data
    finished_export_trend := finished_export_trend data
    global_demand_total := global_demand_total data
    global_demand_trend := global_demand_trend data
    market_gap := market_gap data
    aligned_years := alignedYears data
    excluded_indonesia_only := indonesiaOnlyYears data
    excluded_global_only := globalOnlyYears data }

/-! ### Claims C1 and C2 -/

/-- Two datasets whose year sets are disjoint: the finished exports live in
2020, the global demand in 2021. -/
def disjointData : ProtocolData :=
  { indonesia_raw_export := []
    indonesia_semi_export := []
    indonesia_finished_export := [⟨2020, 100⟩]
    world_finished_import := [⟨2021, 200⟩] }

/-- Counterexample to C1: on disjoint year sets the aligned list is empty,
but the finished-export and global-demand totals fall back to the full
dataset sums (data_miner.py lines 462-464 and 484-486), so the totals and
the market gap are not zero. -/
theorem C1_disjoint_years_counterexample :
    commonYears disjointData = [] ∧
    (analyze_protocol_results disjointData).aligned_years = [] ∧
    (analyze_protocol_results disjointData).finished_export_total = 100 ∧
    (analyze_protocol_results disjointData).global_demand_total = 200 ∧
    (analyze_protocol_results disjointData).market_gap = 100 ∧
    ¬ ((analyze_protocol_results disjointData).finished_export_total = 0 ∧
        (analyze_protocol_results disjointData).global_demand_total = 0 ∧
        (analyze_protocol_results disjointData).market_gap = 0) := by
  have hcommon : commonYears disjointData = [] := by decide
  have haligned : alignedYears disjointData = [] := by rw [alignedYears, if_pos hcommon]
  have hfin : (analyze_protocol_results disjointData).finished_export_total = 100 := by
    show finished_export_total disjointData = 100
    rw [finished_export_total, if_neg (by decide), if_pos haligned]
    norm_num [valueSum, disjointData]
  have hglob : (analyze_protocol_results disjointData).global_demand_total = 200 := by
    show global_demand_total disjointData = 200
    rw [global_demand_total, if_neg (by decide), if_pos haligned]
    norm_num [valueSum, disjointData]
  have hgap : (analyze_protocol_results disjointData).market_gap = 100 := by
    show market_gap disjointData = 100
    rw [market_gap]
    rw [show global_demand_total disjointData = 200 from hglob,
      show finished_export_total disjointData = 100 from hfin]
    norm_num
  refine ⟨hcommon, haligned, hfin, hglob, hgap, ?_⟩
  intro h
  exact absurd (hfin.symm.trans h.1) (by norm_num)

/-- Claim C1 as amended: on disjoint year sets the aligned list is empty and
both trends are 0, but the finished-export and global-demand totals are the
unrestricted full-dataset sums and the gap is their difference. -/
theorem C1_disjoint_years_amended (data : ProtocolData)
    (h : commonYears data = []) :
    (analyze_protocol_results data).aligned_years = [] ∧
    (analyze_protocol_results data).finished_export_trend = 0 ∧
    (analyze_protocol_results data).global_demand_trend = 0 ∧
    (analyze_protocol_results data).finished_export_total =
      valueSum data.indonesia_finished_export ∧
    (analyze_protocol_results data).global_demand_total =
      valueSum data.world_finished_import ∧
    (analyze_protocol_results data).market_gap =
      valueSum data.world_finished_import - valueSum data.indonesia_finished_export := by
  have haligned : alignedYears data = [] := by rw [alignedYears, if_pos h]
  have hfin : finished_export_total data = valueSum data.indonesia_finished_export := by
    unfold finished_export_total
    by_cases hdf : data.indonesia_finished_export = []
    · rw [if_pos hdf, hdf]; rfl
    · rw [if_neg hdf, if_pos haligned]
  have hglob : global_demand_total data = valueSum data.world_finished_import := by
    unfold global_demand_total
    by_cases hdf : data.world_finished_import = []
    · rw [if_pos hdf, hdf]; rfl
    · rw [if_neg hdf, if_pos haligned]
  refine ⟨haligned, ?_, ?_, hfin, hglob, ?_⟩
  · show finished_export_trend data = 0
    unfold finished_export_trend
    by_cases hdf : data.indonesia_finished_export = []
    · rw [if_pos hdf]
    · rw [if_neg hdf, if_pos haligned]
  · show global_demand_trend data = 0
    unfold global_demand_trend
    by_cases hdf : data.world_finished_import = []
    · rw [if_pos hdf]
    · rw [if_neg hdf, if_pos haligned]
  · show market_gap data = _
    rw [market_gap, hfin, hglob]

/-- Witness for the amended C1 at `disjointData`. -/
theorem C1_disjoint_years_amended_witness :
    (analyze_protocol_results disjointData).aligned_years = [] ∧
    (analyze_protocol_results disjointData).finished_export_trend = 0 ∧
    (analyze_protocol_results disjointData).global_demand_trend = 0 ∧
    (analyze_protocol_results disjointData).finished_export_total =
      valueSum disjointData.indonesia_finished_export ∧
    (analyze_protocol_results disjointData).global_demand_total =
      valueSum disjointData.world_finished_import ∧
    (analyze_protocol_results disjointData).market_gap =
      valueSum disjointData.world_finished_import -
        valueSum disjointData.indonesia_finished_export :=
  C1_disjoint_years_amended disjointData (by decide)

/-- Claim C2: the analyzer is total (it is a total Lean function on
`ProtocolData`); on four empty datasets it returns all-zero totals and
trends, an empty aligned-years list, and gap 0; and absence of data for any
single stage yields zero total and trend for that stage. -/
theorem C2_analyzer_total :
    analyze_protocol_results ⟨[], [], [], []⟩ =
      { raw_export_total := 0, raw_export_trend := 0, semi_export_total := 0,
        semi_export_trend := 0, finished_export_total := 0, finished_export_trend := 0,
        global_demand_total := 0, global_demand_trend := 0, market_gap := 0,
        aligned_years := [], excluded_indonesia_only := [], excluded_global_only := [] } ∧
    (∀ data : ProtocolData,
      (data.indonesia_raw_export = [] →
        (analyze_protocol_results data).raw_export_total = 0 ∧
        (analyze_protocol_results data).raw_export_trend = 0) ∧
      (data.indonesia_semi_export = [] →
        (analyze_protocol_results data).semi_export_total = 0 ∧
        (analyze_protocol_results data).semi_export_trend = 0) ∧
      (data.indonesia_finished_export = [] →
        (analyze_protocol_results data).finished_export_total = 0 ∧
        (analyze_protocol_results data).finished_export_trend = 0) ∧
      (data.world_finished_import = [] →
        (analyze_protocol_results data).global_demand_total = 0 ∧
        (analyze_protocol_results data).global_demand_trend = 0)) := by
  constructor
  · unfold analyze_protocol_results
    have hcommon : commonYears ⟨[], [], [], []⟩ = [] := by decide
    simp only [Analysis.mk.injEq]
    refine ⟨?_, ?_, ?_, ?_, ?_, ?_, ?_, ?_, ?_, ?_, by decide, by decide⟩
    · rw [raw_export_total, if_pos rfl]
    · rw [raw_export_trend, if_pos rfl]
    · rw [semi_export_total, if_pos rfl]
    · rw [semi_export_trend, if_pos rfl]
    · rw [finished_export_total, if_pos rfl]
    · rw [finished_export_trend, if_pos rfl]
    · rw [global_demand_total, if_pos rfl]
    · rw [global_demand_trend, if_pos rfl]
    · rw [market_gap, global_demand_total, if_pos rfl, finished_export_total, if_pos rfl]
      norm_num
    · rw [alignedYears, if_pos hcommon]
  · intro data
    refine ⟨fun h => ⟨?_, ?_⟩, fun h => ⟨?_, ?_⟩, fun h => ⟨?_, ?_⟩, fun h => ⟨?_, ?_⟩⟩
    · show raw_export_total data = 0
      rw [raw_export_total, if_pos h]
    · show raw_export_trend data = 0
      rw [raw_export_trend, if_pos h]
    · show semi_export_total data = 0
      rw [semi_export_total, if_pos h]
    · show semi_export_trend data = 0
      rw [semi_export_trend, if_pos h]
    · show finished_export_total data = 0
      rw [finished_export_total, if_pos h]
    · show finished_export_trend data = 0
      rw [finished_export_trend, if_pos h]
    · show global_demand_total data = 0
      rw [global_demand_total, if_pos h]
    · show global_demand_trend data = 0
      rw [global_demand_trend, if_pos h]

/-- Witness for C2 at the all-empty input. -/
theorem C2_analyzer_total_witness :
    (analyze_protocol_results ⟨[], [], [], []⟩).raw_export_total = 0 ∧
    (analyze_protocol_results ⟨[], [], [], []⟩).global_demand_trend = 0 :=
  ⟨((C2_analyzer_total.2 ⟨[], [], [], []⟩).1 rfl).1,
   ((C2_analyzer_total.2 ⟨[], [], [], []⟩).2.2.2 rfl).2⟩

/-! ### Claim C3 -/

theorem yearlySums_length (df : List TradeRow) :
    (yearlySums df).length = (uniqueYears df).length := by
  rw [yearlySums, List.length_map, sortedYears, List.length_insertionSort]

theorem uniqueYears_length_le (df : List TradeRow) :
    (uniqueYears df).length ≤ df.length := by
  have h := (List.dedup_sublist (df.map (·.period))).length_le
  rwa [List.length_map] at h

/-- Claim C3: with at least 2 distinct years and a positive first yearly sum
the trend is `((last / first) ^ (1 / (n_years - 1)) - 1) * 100` over the
chronological yearly sums; with fewer than 2 distinct years or a non-positive
first yearly sum it is 0; and the two-point series `[100 in year y, 150 in
year y+1]` has trend exactly 50. -/
theorem C3_cagr_formula (df : List TradeRow) :
    (∀ (y0 yl : Nat × ℚ) (rest : List (Nat × ℚ)),
        yearlySums df = y0 :: rest → (y0 :: rest).getLast? = some yl →
        2 ≤ (uniqueYears df).length → 0 < y0.2 →
        trendOf df =
          (((yl.2 : ℝ) / (y0.2 : ℝ)) ^
            ((1 : ℝ) / (((uniqueYears df).length - 1 : ℕ) : ℝ)) - 1) * 100) ∧
    ((uniqueYears df).length < 2 → trendOf df = 0) ∧
    (∀ (y0 : Nat × ℚ) (rest : List (Nat × ℚ)),
        yearlySums df = y0 :: rest → y0.2 ≤ 0 → trendOf df = 0) ∧
    (∀ y : Nat, trendOf [⟨y, 100⟩, ⟨y + 1, 150⟩] = 50) := by
  refine ⟨?_, ?_, ?_, ?_⟩
  · intro y0 yl rest hys hlast h2 hpos
    have hle := uniqueYears_length_le df
    have hlen1 : 1 < df.length := by omega
    have hyslen := yearlySums_length df
    obtain ⟨y1, rest', rfl⟩ : ∃ y1 rest', rest = y1 :: rest' := by
      cases rest with
      | nil =>
        exfalso
        rw [hys] at hyslen
        simp only [List.length_cons, List.length_nil] at hyslen
        omega
      | cons a t => exact ⟨a, t, rfl⟩
    have hgl : yl = (y1 :: rest').getLast (List.cons_ne_nil _ _) := by
      rw [List.getLast?_eq_getLast _ (List.cons_ne_nil _ _)] at hlast
      injection hlast with h'
      rw [← h', List.getLast_cons]
    have hn : (y1 :: rest').length = (uniqueYears df).length - 1 := by
      rw [hys] at hyslen
      simp only [List.length_cons] at hyslen
      simp only [List.length_cons]
      omega
    unfold trendOf
    rw [if_pos hlen1, hys]
    simp only [cagrPercent]
    rw [if_pos hpos, hn, hgl]
  · intro h2
    unfold trendOf
    by_cases hlen : 1 < df.length
    · rw [if_pos hlen]
      have hyslen := yearlySums_length df
      cases hys : yearlySums df with
      | nil => simp [cagrPercent]
      | cons a t =>
        cases t with
        | nil => simp [cagrPercent]
        | cons b t' =>
          exfalso
          rw [hys] at hyslen
          simp only [List.length_cons] at hyslen
          omega
    · rw [if_neg hlen]
  · intro y0 rest hys hnp
    unfold trendOf
    by_cases hlen : 1 < df.length
    · rw [if_pos hlen, hys]
      cases rest with
      | nil => simp [cagrPercent]
      | cons y1 rest' =>
        simp only [cagrPercent]
        rw [if_neg (not_lt.mpr hnp)]
    · rw [if_neg hlen]
  · intro y
    have hne : ¬ (y + 1 = y) := by omega
    have hdedup : uniqueYears [⟨y, 100⟩, ⟨y + 1, 150⟩] = [y, y + 1] := by
      show ([y, y + 1] : List Nat).dedup = [y, y + 1]
      rw [List.dedup_cons_of_not_mem (by simp), List.dedup_cons_of_not_mem (by simp),
        List.dedup_nil]
    have hsorted : sortedYears [⟨y, 100⟩, ⟨y + 1, 150⟩] = [y, y + 1] := by
      rw [sortedYears, hdedup]
      apply List.Sorted.insertionSort_eq
      simp [List.sorted_cons]
    have hf1 : ([⟨y, 100⟩, ⟨y + 1, 150⟩] : List TradeRow).filter
        (fun r => decide (r.period = y)) = [⟨y, 100⟩] := by
      rw [List.filter_cons_of_pos (by simp), List.filter_cons_of_neg (by simp [hne]),
        List.filter_nil]
    have hf2 : ([⟨y, 100⟩, ⟨y + 1, 150⟩] : List TradeRow).filter
        (fun r => decide (r.period = y + 1)) = [⟨y + 1, 150⟩] := by
      rw [List.filter_cons_of_neg (by simp), List.filter_cons_of_pos (by simp),
        List.filter_nil]
    have hys : yearlySums [⟨y, 100⟩, ⟨y + 1, 150⟩] = [(y, 100), (y + 1, 150)] := by
      rw [yearlySums, hsorted]
      show [(y, valueSum (([⟨y, 100⟩, ⟨y + 1, 150⟩] : List TradeRow).filter
              (fun r => decide (r.period = y)))),
            (y + 1, valueSum (([⟨y, 100⟩, ⟨y + 1, 150⟩] : List TradeRow).filter
              (fun r => decide (r.period = y + 1))))] = [(y, 100), (y + 1, 150)]
      rw [hf1, hf2]
      norm_num [valueSum]
    unfold trendOf
    rw [if_pos (by simp), hys]
    simp only [cagrPercent, List.getLast_singleton, List.length_singleton]
    rw [if_pos (by norm_num : (0 : ℚ) < ((y, (100 : ℚ)).2 : ℚ))]
    have hexp : ((1 : ℝ) / ((1 : ℕ) : ℝ)) = 1 := by norm_num
    rw [hexp, Real.rpow_one]
    push_cast
    norm_num

/-- Witness for C3 at the concrete two-year dataset `2019 ↦ 100, 2020 ↦ 150`. -/
theorem C3_cagr_formula_witness :
    trendOf [⟨2019, 100⟩, ⟨2020, 150⟩] =
      ((((150 : ℚ) : ℝ) / ((100 : ℚ) : ℝ)) ^
        ((1 : ℝ) / (((uniqueYears [⟨2019, 100⟩, ⟨2020, 150⟩]).length - 1 : ℕ) : ℝ)) - 1) * 100 :=
  (C3_cagr_formula [⟨2019, 100⟩, ⟨2020, 150⟩]).1 (2019, 100) (2020, 150) [(2020, 150)]
    (by simp [yearlySums, sortedYears, uniqueYears, valueSum, List.dedup_cons_of_not_mem,
      List.insertionSort, List.orderedInsert, List.filter])
    (by rfl) (by decide) (by norm_num)

/-! ## data_miner.get_export_data / get_import_data (src/data_miner.py lines 157-279) -/

/-- A JSON scalar as returned by the trade service: the fetched rows carry
their values verbatim (numbers, strings, or null). -/
inductive JVal where
  | num (q : ℚ)
  | str (s : String)
  | null
deriving DecidableEq

/-- One raw record of a service response: a field-name/value mapping. -/
abbrev ApiRow := List (String × JVal)

/-- The observable behaviour of `_make_request (reporter, partner, flow_code,
hs_code, period)`: `some rows` is a 200 response carrying `data = rows`;
`none` is any failure or a response without usable `data` (the `if data and
'data' in data and len(data['data']) > 0` guard treats both alike). -/
abbrev MakeRequest := String → String → String → String → Nat → Option (List ApiRow)

/-- The per-year body of the loops: the rows contributed by one year
(data_miner.py lines 188-189 and analogous import lines). -/
def exportFragment (req : MakeRequest) (reporter hs : String) (y : Nat) : List ApiRow :=
  match req reporter "0" "X" hs y with
  | some rows => if rows.length > 0 then rows else []
  | none => []

/-- Import counterpart (flow code `M`). -/
def importFragment (req : MakeRequest) (reporter hs : String) (y : Nat) : List ApiRow :=
  match req reporter "0" "M" hs y with
  | some rows => if rows.length > 0 then rows else []
  | none => []

/-- src/data_miner.py `get_export_data` (lines 157-199), instrumented with
the list of periods for which `_make_request` is issued: the loop body calls
`_make_request` once per element of `years`, unconditionally, and extends
`all_data` with the returned rows. -/
def get_export_data (req : MakeRequest) (reporter hs : String) (years : List Nat) :
    List Nat × List ApiRow :=
  years.foldl
    (fun acc y =>
      match req reporter "0" "X" hs y with
      | some rows =>
          if rows.length > 0 then (acc.1 ++ [y], acc.2 ++ rows) else (acc.1 ++ [y], acc.2)
      | none => (acc.1 ++ [y], acc.2))
    ([], [])

/-- Lines 224-241 of data_miner.py. -/
def major_importers : List String :=
  ["842", "156", "276", "392", "826", "251", "381", "528", "124", "410", "356",
   "724", "036", "702", "458"]

/-- src/data_miner.py `get_import_data` (lines 201-279): for the `"all"`
scope one request per (major importer, year), otherwise one request per
year. -/
def get_import_data (req : MakeRequest) (reporter hs : String) (years : List Nat) :
    List ApiRow :=
  if reporter = "all" then
    major_importers.foldl
      (fun acc country =>
        years.foldl
          (fun acc y =>
            match req country "0" "M" hs y with
            | some rows => if rows.length > 0 then acc ++ rows else acc
            | none => acc)
          acc)
      []
  else
    years.foldl
      (fun acc y =>
        match req reporter "0" "M" hs y with
        | some rows => if rows.length > 0 then acc ++ rows else acc
        | none => acc)
      []

/-! ### Helper lemmas for the fetch loops -/

theorem get_export_data_foldl (req : MakeRequest) (reporter hs : String) :
    ∀ (years : List Nat) (acc : List Nat × List ApiRow),
      years.foldl
          (fun acc y =>
            match req reporter "0" "X" hs y with
            | some rows =>
                if rows.length > 0 then (acc.1 ++ [y], acc.2 ++ rows) else (acc.1 ++ [y], acc.2)
            | none => (acc.1 ++ [y], acc.2))
          acc =
        (acc.1 ++ years, acc.2 ++ (years.map (exportFragment req reporter hs)).flatten) := by
  intro years
  induction years with
  | nil => intro acc; simp
  | cons y ys ih =>
    intro acc
    rw [List.foldl_cons, List.map_cons, List.flatten_cons, ih]
    unfold exportFragment
    cases hr : req reporter "0" "X" hs y with
    | some rows =>
      by_cases hlen : rows.length > 0
      · simp [hlen, List.append_assoc]
      · simp [hlen, List.append_assoc]
    | none => simp

theorem importLoop_foldl (req : MakeRequest) (reporter hs : String) :
    ∀ (years : List Nat) (acc : List ApiRow),
      years.foldl
          (fun acc y =>
            match req reporter "0" "M" hs y with
            | some rows => if rows.length > 0 then acc ++ rows else acc
            | none => acc)
          acc =
        acc ++ (years.map (importFragment req reporter hs)).flatten := by
  intro years
  induction years with
  | nil => intro acc; simp
  | cons y ys ih =>
    intro acc
    rw [List.foldl_cons, List.map_cons, List.flatten_cons, ih]
    unfold importFragment
    cases hr : req reporter "0" "M" hs y with
    | some rows =>
      by_cases hlen : rows.length > 0
      · simp [hlen, List.append_assoc]
      · simp [hlen, List.append_assoc]
    | none => simp

theorem importAll_foldl (req : MakeRequest) (hs : String) (years : List Nat) :
    ∀ (countries : List String) (acc : List ApiRow),
      countries.foldl
          (fun acc country =>
            years.foldl
              (fun acc y =>
                match req country "0" "M" hs y with
                | some rows => if rows.length > 0 then acc ++ rows else acc
                | none => acc)
              acc)
          acc =
        acc ++ (countries.map fun c => (years.map (importFragment req c hs)).flatten).flatten := by
  intro countries
  induction countries with
  | nil => intro acc; simp
  | cons c cs ih =>
    intro acc
    rw [List.foldl_cons, List.map_cons, List.flatten_cons, ih, importLoop_foldl,
      List.append_assoc]

/-- A request oracle that answers every request with a single-row fragment. -/
def reqConst : MakeRequest := fun _ _ _ _ _ => some [[("primaryValue", JVal.num 7)]]

/-- Counterexample to C7: `get_export_data` has no current-calendar-year
check — with 2025 as the current year, a request is still issued for 2030
and its fragment ends up in the returned dataset. -/
theorem C7_skip_future_years_counterexample :
    2030 ∈ (get_export_data reqConst "360" "080112" [2030]).1 ∧ 2025 < 2030 ∧
    (get_export_data reqConst "360" "080112" [2030]).2 = [[("primaryValue", JVal.num 7)]] := by
  refine ⟨?_, by omega, ?_⟩ <;> decide

/-- Claim C7 as amended: the single-scope fetch issues one request per
element of `years` unconditionally (no year is skipped, whatever the current
calendar year), and the returned dataset is the concatenation of the
fragments of all requested years. -/
theorem C7_requests_every_year (req : MakeRequest) (reporter hs : String)
    (years : List Nat) :
    (get_export_data req reporter hs years).1 = years ∧
    (get_export_data req reporter hs years).2 =
      (years.map (exportFragment req reporter hs)).flatten := by
  unfold get_export_data
  rw [get_export_data_foldl]
  exact ⟨by simp, by simp⟩

/-- A request oracle whose response carries a non-numeric `primaryValue`. -/
def reqBad : MakeRequest := fun _ _ _ _ _ => some [[("primaryValue", JVal.str "N/A")]]

/-- Does the numeric-column entry hold a coerced value (a number, or the
"unknown" placeholder `null`)? -/
def JVal.isNumericOrNull : JVal → Bool
  | .num _ => true
  | .null => true
  | .str _ => false

/-- Counterexample to C8: neither fetch coerces values — a non-numeric
`primaryValue` string is returned verbatim, not mapped to a numeric type or
an "unknown" value. -/
theorem C8_numeric_coercion_counterexample :
    (get_export_data reqBad "360" "080112" [2020]).2 = [[("primaryValue", JVal.str "N/A")]] ∧
    get_import_data reqBad "36" "080112" [2020] = [[("primaryValue", JVal.str "N/A")]] ∧
    JVal.isNumericOrNull (JVal.str "N/A") = false := by
  refine ⟨?_, ?_, rfl⟩ <;> decide

/-- Claim C8 as amended: both fetches return the service rows verbatim — the
result is exactly the concatenation of the returned fragments, with no value
transformation. -/
theorem C8_rows_verbatim (req : MakeRequest) (reporter hs : String) (years : List Nat) :
    (get_export_data req reporter hs years).2 =
      (years.map (exportFragment req reporter hs)).flatten ∧
    get_import_data req reporter hs years =
      (if reporter = "all" then
        (major_importers.map fun c => (years.map (importFragment req c hs)).flatten).flatten
      else (years.map (importFragment req reporter hs)).flatten) := by
  constructor
  · unfold get_export_data
    rw [get_export_data_foldl]
    simp
  · unfold get_import_data
    by_cases hall : reporter = "all"
    · rw [if_pos hall, if_pos hall, importAll_foldl]
      simp
    · rw [if_neg hall, if_neg hall, importLoop_foldl]
      simp

/-! ## database.cache_api_response / get_cached_api_response
(src/database.py lines 249-344)

The `api_cache` table: `cache_key` is UNIQUE, so the table is a keyed store.
Time is measured in days (the TTL unit of `ttl_days`).  `json.dumps` followed
by `json.loads` is modelled as the identity on the payload type `α`. -/

structure CacheRow (α : Type) where
  request_type : String
  hs_code : String
  response_data : α
  created_at : Nat
  expires_at : Nat
deriving DecidableEq

abbrev CacheState (α : Type) := List (String × CacheRow α)

/-- src/database.py `cache_api_response` (lines 249-307): `INSERT ... ON
DUPLICATE KEY UPDATE response_data = VALUES(response_data), expires_at =
VALUES(expires_at), created_at = CURRENT_TIMESTAMP` with
`expires_at = now + ttl_days`.  On a duplicate key only those three columns
change; otherwise a fresh row is appended. -/
def cache_api_response {α : Type} (st : CacheState α) (now : Nat)
    (cache_key request_type hs_code : String) (response_data : α) (ttl_days : Nat) :
    CacheState α :=
  if st.any (fun e => decide (e.1 = cache_key)) then
    st.map fun e =>
      if e.1 = cache_key then
        (e.1, { e.2 with response_data := response_data, expires_at := now + ttl_days,
                         created_at := now })
      else e
  else st ++ [(cache_key, ⟨request_type, hs_code, response_data, now, now + ttl_days⟩)]

/-- src/database.py `get_cached_api_response` (lines 309-344):
`SELECT * FROM api_cache WHERE cache_key = %s AND expires_at > NOW()`. -/
def get_cached_api_response {α : Type} (st : CacheState α) (now : Nat)
    (cache_key : String) : Option α :=
  match st.find? (fun e => decide (e.1 = cache_key) && decide (now < e.2.expires_at)) with
  | some e => some e.2.response_data
  | none => none

/-! ### Helper lemmas for the cache -/

theorem mem_cache_api_response {α : Type} {st : CacheState α} {now : Nat}
    {key rt hs : String} {p : α} {ttl : Nat} {e : String × CacheRow α}
    (h : e ∈ cache_api_response st now key rt hs p ttl) :
    (e.1 ≠ key ∧ e ∈ st) ∨
      (e.1 = key ∧ e.2.response_data = p ∧ e.2.created_at = now ∧
        e.2.expires_at = now + ttl) := by
  unfold cache_api_response at h
  by_cases hany : st.any (fun e => decide (e.1 = key)) = true
  · rw [if_pos hany] at h
    obtain ⟨e', he', heq⟩ := List.mem_map.mp h
    by_cases hk : e'.1 = key
    · rw [if_pos hk] at heq
      right
      rw [← heq]
      exact ⟨hk, rfl, rfl, rfl⟩
    · rw [if_neg hk] at heq
      left
      rw [← heq]
      exact ⟨hk, he'⟩
  · rw [if_neg hany] at h
    rcases List.mem_append.mp h with hmem | hnew
    · left
      refine ⟨?_, hmem⟩
      intro hk
      apply hany
      rw [List.any_eq_true]
      exact ⟨e, hmem, by simp [hk]⟩
    · right
      have he : e = (key, ⟨rt, hs, p, now, now + ttl⟩) := by simpa using hnew
      rw [he]
      exact ⟨rfl, rfl, rfl, rfl⟩

theorem exists_key_entry_put {α : Type} (st : CacheState α) (now : Nat)
    (key rt hs : String) (p : α) (ttl : Nat) :
    ∃ e, e ∈ cache_api_response st now key rt hs p ttl ∧ e.1 = key := by
  unfold cache_api_response
  by_cases hany : st.any (fun e => decide (e.1 = key)) = true
  · rw [if_pos hany]
    obtain ⟨e, he, hek⟩ := List.any_eq_true.mp hany
    simp only [decide_eq_true_eq] at hek
    refine ⟨(e.1, { e.2 with response_data := p, expires_at := now + ttl, created_at := now }), ?_, hek⟩
    apply List.mem_map.mpr
    exact ⟨e, he, by rw [if_pos hek]⟩
  · rw [if_neg hany]
    refine ⟨(key, ⟨rt, hs, p, now, now + ttl⟩), ?_, rfl⟩
    simp

theorem get_cache_put {α : Type} (st : CacheState α) (now now' : Nat)
    (key rt hs : String) (p : α) (ttl : Nat) :
    get_cached_api_response (cache_api_response st now key rt hs p ttl) now' key =
      if now' < now + ttl then some p else none := by
  by_cases hlt : now' < now + ttl
  · rw [if_pos hlt]
    unfold get_cached_api_response
    cases hf : (cache_api_response st now key rt hs p ttl).find?
        (fun e => decide (e.1 = key) && decide (now' < e.2.expires_at)) with
    | none =>
      exfalso
      obtain ⟨e, hmem, hek⟩ := exists_key_entry_put st now key rt hs p ttl
      have hexp : e.2.expires_at = now + ttl := by
        rcases mem_cache_api_response hmem with ⟨hne, _⟩ | ⟨_, _, _, h3⟩
        · exact absurd hek hne
        · exact h3
      have := List.find?_eq_none.mp hf e hmem
      apply this
      simp [hek, hexp, hlt]
    | some e =>
      have hp := List.find?_some hf
      simp only [Bool.and_eq_true, decide_eq_true_eq] at hp
      have hmem := List.mem_of_find?_eq_some hf
      rcases mem_cache_api_response hmem with ⟨hne, _⟩ | ⟨_, h1, _, _⟩
      · exact absurd hp.1 hne
      · show some e.2.response_data = some p
        rw [h1]
  · rw [if_neg hlt]
    unfold get_cached_api_response
    have hf : (cache_api_response st now key rt hs p ttl).find?
        (fun e => decide (e.1 = key) && decide (now' < e.2.expires_at)) = none := by
      rw [List.find?_eq_none]
      intro e hmem
      simp only [Bool.and_eq_true, decide_eq_true_eq, not_and]
      intro hek
      rcases mem_cache_api_response hmem with ⟨hne, _⟩ | ⟨_, _, _, h3⟩
      · exact absurd hek hne
      · rw [h3]; exact hlt
    rw [hf]

/-- Claim C9: `get` never returns an expired entry; `put` is an upsert that
replaces the payload and resets both timestamps; after a `put` with TTL
`ttl`, `get` at any time inside the window returns the new payload and at any
time at or past expiry returns nothing; and a `put` with TTL 30 followed by
an immediate `get` of the same key returns the identical payload. -/
theorem C9_cache_ttl_upsert {α : Type} :
    (∀ (st : CacheState α) (now : Nat) (key : String) (v : α),
        get_cached_api_response st now key = some v →
        ∃ e, e ∈ st ∧ e.1 = key ∧ now < e.2.expires_at ∧ e.2.response_data = v) ∧
    (∀ (st : CacheState α) (now now' : Nat) (key rt hs : String) (p : α) (ttl : Nat),
        get_cached_api_response (cache_api_response st now key rt hs p ttl) now' key =
          if now' < now + ttl then some p else none) ∧
    (∀ (st : CacheState α) (now : Nat) (key rt hs : String) (p : α)
        (e : String × CacheRow α),
        e ∈ cache_api_response st now key rt hs p 30 → e.1 = key →
        e.2.response_data = p ∧ e.2.created_at = now ∧ e.2.expires_at = now + 30) ∧
    (∀ (st : CacheState α) (now : Nat) (key rt hs : String) (p : α),
        get_cached_api_response (cache_api_response st now key rt hs p 30) now key =
          some p) := by
  refine ⟨?_, get_cache_put, ?_, ?_⟩
  · intro st now key v h
    unfold get_cached_api_response at h
    cases hf : st.find? (fun e => decide (e.1 = key) && decide (now < e.2.expires_at)) with
    | none => rw [hf] at h; exact absurd h (by simp)
    | some e =>
      rw [hf] at h
      have hv : e.2.response_data = v := by
        have h' : some e.2.response_data = some v := h
        injection h'
      have hmem := List.mem_of_find?_eq_some hf
      have hp := List.find?_some hf
      simp only [Bool.and_eq_true, decide_eq_true_eq] at hp
      exact ⟨e, hmem, hp.1, hp.2, hv⟩
  · intro st now key rt hs p e hmem hkey
    rcases mem_cache_api_response hmem with ⟨hne, _⟩ | ⟨_, h1, h2, h3⟩
    · exact absurd hkey hne
    · exact ⟨h1, h2, h3⟩
  · intro st now key rt hs p
    rw [get_cache_put, if_pos (by omega)]

/-- Witness for C9: a concrete put/get round trip over `ℕ` payloads, and the
field shape of the freshly inserted row. -/
theorem C9_cache_ttl_upsert_witness :
    get_cached_api_response
        (cache_api_response ([] : CacheState Nat) 0 "360_0_X_080112_2020" "export"
          "080112" 5 30) 0 "360_0_X_080112_2020" = some 5 ∧
    (("360_0_X_080112_2020",
        (⟨"export", "080112", 5, 0, 30⟩ : CacheRow Nat)) :
      String × CacheRow Nat).2.response_data = 5 :=
  ⟨(C9_cache_ttl_upsert.2.2.2 [] 0 "360_0_X_080112_2020" "export" "080112" 5),
   ((C9_cache_ttl_upsert.2.2.1 [] 0 "360_0_X_080112_2020" "export" "080112" 5
      ("360_0_X_080112_2020", ⟨"export", "080112", 5, 0, 30⟩)
      (by decide) rfl).1)⟩

end ZT
